import Mathlib

/-!
Verification of the Actum AI Compliance Engine against its specification.

The repository snapshot contains the administrative frontend
(src/frontend/src/pages/Evaluate.js and the other pages) and the database
seed script (src/backend/init.sql); the backend Policy Decision Engine
and Audit Trail are not part of the snapshot.  Following the spec, the
missing components are modelled here from the specification text (their
doc comments say so); frontend logic and the seed script are embedded
from the source files directly.
-/

namespace Actum

/-- Modelled from the spec: enforcement action of a policy tag,
Action in the set of block, flag, allow (spec section 3, PolicyTag). -/
inductive Action where
  | block : Action
  | flag : Action
  | allow : Action
  deriving DecidableEq

/-- Modelled from the spec: risk tier of a policy tag, one of
unacceptable, high, limited, minimal, ordered by severity (spec section 3). -/
inductive RiskTier where
  | unacceptable : RiskTier
  | high : RiskTier
  | limited : RiskTier
  | minimal : RiskTier
  deriving DecidableEq

/-- Modelled from the spec: numeric severity of an action for the
dominance precedence block over flag over allow (spec section 4.3). -/
def actionRank : Action → Nat
  | Action.block => 2
  | Action.flag => 1
  | Action.allow => 0

/-- Modelled from the spec: numeric severity of a risk tier for the
fixed tier precedence unacceptable over high over limited over minimal. -/
def tierRank : RiskTier → Nat
  | RiskTier.unacceptable => 3
  | RiskTier.high => 2
  | RiskTier.limited => 1
  | RiskTier.minimal => 0

/-- Modelled from the spec: the more dominant of two actions. -/
def maxAction (a b : Action) : Action :=
  if actionRank a < actionRank b then b else a

/-- Modelled from the spec: the higher-precedence of two risk tiers. -/
def maxTier (a b : RiskTier) : RiskTier :=
  if tierRank a < tierRank b then b else a

/-- Modelled from the spec: a PolicyTag carries a name, description,
risk tier, action, and (as the curated lexicon of section 4.2) the
keyword phrases whose case-insensitive occurrence triggers it. -/
structure PolicyTag where
  name : String
  description : String
  riskLevel : RiskTier
  action : Action
  keywords : List String
  deriving DecidableEq

/-- Modelled from the spec: a versioned, immutable policy pack holding
its tags (spec section 3, PolicyPack). -/
structure PolicyPack where
  name : String
  version : String
  description : String
  isActive : Bool
  tags : List PolicyTag
  deriving DecidableEq

/-- Modelled from the spec: a single final Decision with the exact field
set of spec section 3 (decision, risk_level, confidence_score,
explanation, triggered tag names, policy_version). -/
structure Decision where
  decision : Action
  risk_level : RiskTier
  confidence_score : Nat
  explanation : String
  policy_tags : List String
  policy_version : String
  deriving DecidableEq

/-- Lower-casing of a single character restricted to ASCII letters. -/
def lowerChar (c : Char) : Char :=
  if 65 ≤ c.toNat ∧ c.toNat ≤ 90 then Char.ofNat (c.toNat + 32) else c

/-- Character list of a string with ASCII letters lower-cased. -/
def lowerChars (s : String) : List Char :=
  s.toList.map lowerChar

/-- Whether the first list is an initial segment of the second. -/
def isInitialSeg : List Char → List Char → Bool
  | [], _ => true
  | _ :: _, [] => false
  | a :: as, b :: bs => a == b && isInitialSeg as bs

/-- Whether the pattern occurs contiguously inside the haystack. -/
def occursIn (pat : List Char) (hay : List Char) : Bool :=
  match hay with
  | [] => pat.isEmpty
  | c :: rest => isInitialSeg pat (c :: rest) || occursIn pat rest

/-- Modelled from the spec: case-insensitive substring matching used by
the keyword rules of the Pattern and Risk Detector (spec section 4.2). -/
def containsCI (hay pat : String) : Bool :=
  occursIn (lowerChars pat) (lowerChars hay)

/-- Modelled from the spec: the Pattern and Risk Detector.  detect(text,
activePack) returns the candidate tag names whose keyword rules match
the normalized input; it is pure in its inputs (spec section 4.2). -/
def detect (text : String) (pack : PolicyPack) : List String :=
  (pack.tags.filter (fun t => t.keywords.any (fun k => containsCI text k))).map
    (fun t => t.name)

/-- Insertion of a tag into a list kept sorted by descending tier rank. -/
def insertTag (t : PolicyTag) : List PolicyTag → List PolicyTag
  | [] => [t]
  | h :: rest =>
    if tierRank h.riskLevel < tierRank t.riskLevel then t :: h :: rest
    else h :: insertTag t rest

/-- Modelled from the spec: ordering of the triggered tags by the fixed
tier precedence (spec section 4.3). -/
def sortTags (l : List PolicyTag) : List PolicyTag :=
  l.foldr insertTag []

/-- Modelled from the spec: aggregate action over the triggered tags,
with the explicit tie-break that block dominates flag dominates allow
regardless of tier ordering (spec section 4.3). -/
def aggAction : List PolicyTag → Action
  | [] => Action.allow
  | t :: rest => maxAction t.action (aggAction rest)

/-- Modelled from the spec: aggregate risk tier over the triggered tags,
the highest-precedence tier, minimal if none triggered. -/
def aggTier : List PolicyTag → RiskTier
  | [] => RiskTier.minimal
  | t :: rest => maxTier t.riskLevel (aggTier rest)

/-- Modelled from the spec: the Rule Evaluator.  evaluate(candidateTagNames,
activePack) resolves each candidate name within the active pack (unknown
names are dropped), orders the result by tier precedence, and computes
the aggregate tier and the aggregate action (spec section 4.3). -/
def evaluate (candidates : List String) (pack : PolicyPack) :
    List PolicyTag × RiskTier × Action :=
  let resolved := candidates.filterMap
    (fun n => pack.tags.find? (fun t => t.name == n))
  let triggered := sortTags resolved
  (triggered, aggTier triggered, aggAction triggered)

/-- Modelled from the spec: deterministic confidence score on the 0-100
scale, clamped, from the number of corroborating signals. -/
def confidenceScore (signals : Nat) : Nat :=
  Nat.min 100 (if signals = 0 then 90 else 60 + 20 * signals)

/-- Modelled from the spec: templated natural-language explanation
citing the triggered tag names (spec section 4.4). -/
def mkExplanation (tags : List String) : String :=
  if tags.isEmpty then "No compliance policy was triggered."
  else "Triggered policies: " ++ String.intercalate ", " tags ++ "."

/-- Modelled from the spec: the Decision Composer.  compose merges the
triggered tags, aggregate tier and aggregate action into one final
Decision; it is a total function and never fails (spec section 4.4). -/
def compose (triggered : List PolicyTag) (tier : RiskTier) (act : Action)
    (version : String) : Decision :=
  ⟨act, tier, confidenceScore triggered.length,
    mkExplanation (triggered.map (fun t => t.name)),
    triggered.map (fun t => t.name), version⟩

/-- Modelled from the spec: the full evaluation flow, normalized input
to Detector to Evaluator to Composer (spec section 2). -/
def pipeline (text : String) (pack : PolicyPack) : Decision :=
  let cands := detect text pack
  let r := evaluate cands pack
  compose r.1 r.2.1 r.2.2 pack.version

/-- Modelled from the spec: the three policy tags of the demo pack, with
their (tier, action) pairs fixed by the scenarios of spec section 8 and
a lexicon of biometric-collection, high-risk-automation and
limited-risk-disclosure phrasing (spec section 4.2). -/
def demoTags : List PolicyTag :=
  [⟨"ProhibitedBiometric",
      "Untargeted scraping for facial recognition databases",
      RiskTier.unacceptable, Action.block,
      ["scrape faces", "facial recognition"]⟩,
   ⟨"HighRiskAI", "High-risk AI systems such as automated recruitment",
      RiskTier.high, Action.flag,
      ["cv screening", "recruitment"]⟩,
   ⟨"LimitedRiskAI", "Limited-risk AI with transparency duties",
      RiskTier.limited, Action.flag,
      ["chatbot"]⟩]

/-- The active policy pack, seeded by src/backend/init.sql with name
EU AI Act Compliance Pack, version pack-2025-01-01-v1, active. -/
def activePack : PolicyPack :=
  ⟨"EU AI Act Compliance Pack", "pack-2025-01-01-v1",
    "Default policy pack for EU AI Act compliance", true, demoTags⟩

lemma actionRank_le_two (a : Action) : actionRank a ≤ 2 := by
  cases a <;> simp [actionRank]

lemma actionRank_maxAction (a b : Action) :
    actionRank (maxAction a b) = Nat.max (actionRank a) (actionRank b) := by
  cases a <;> cases b <;> decide

lemma le_rank_aggAction (ts : List PolicyTag) (t : PolicyTag) (ht : t ∈ ts) :
    actionRank t.action ≤ actionRank (aggAction ts) := by
  induction ts with
  | nil => cases ht
  | cons h rest ih =>
    have hc : aggAction (h :: rest) = maxAction h.action (aggAction rest) := rfl
    rcases List.mem_cons.mp ht with h1 | h2
    · subst h1
      rw [hc, actionRank_maxAction]
      exact Nat.le_max_left _ _
    · have hrest := ih h2
      rw [hc, actionRank_maxAction]
      exact le_trans hrest (Nat.le_max_right _ _)

lemma rank_aggAction_le (ts : List PolicyTag) (n : Nat)
    (h : ∀ t ∈ ts, actionRank t.action ≤ n) : actionRank (aggAction ts) ≤ n := by
  induction ts with
  | nil => simp [aggAction, actionRank]
  | cons t rest ih =>
    have hc : aggAction (t :: rest) = maxAction t.action (aggAction rest) := rfl
    have h1 := h t (List.mem_cons_self t rest)
    have h2 : actionRank (aggAction rest) ≤ n :=
      ih (fun u hu => h u (List.mem_cons_of_mem t hu))
    rw [hc, actionRank_maxAction]
    exact Nat.max_le.mpr ⟨h1, h2⟩

lemma action_of_rank_two (a : Action) (h : actionRank a = 2) : a = Action.block := by
  cases a <;> simp [actionRank] at h ⊢

lemma action_of_rank_one (a : Action) (h : actionRank a = 1) : a = Action.flag := by
  cases a <;> simp [actionRank] at h ⊢

lemma rank_le_one_of_ne_block (a : Action) (h : a ≠ Action.block) :
    actionRank a ≤ 1 := by
  cases a
  · exact absurd rfl h
  · simp [actionRank]
  · simp [actionRank]

/-- Claim C2: any triggered tag whose action is block forces the
aggregate action of the Rule Evaluator result to block, regardless of
the tiers and actions of the other triggered tags; likewise, when no
triggered tag has action block, any flag-action tag forces the aggregate
action to flag rather than allow. -/
theorem evaluate_action_dominance (candidates : List String) (pack : PolicyPack) :
    ((∃ t ∈ (evaluate candidates pack).1, t.action = Action.block) →
      (evaluate candidates pack).2.2 = Action.block) ∧
    ((∀ t ∈ (evaluate candidates pack).1, t.action ≠ Action.block) →
      (∃ t ∈ (evaluate candidates pack).1, t.action = Action.flag) →
      (evaluate candidates pack).2.2 = Action.flag) := by
  have hsnd : (evaluate candidates pack).2.2
      = aggAction ((evaluate candidates pack).1) := rfl
  constructor
  · rintro ⟨t, ht, hb⟩
    rw [hsnd]
    have h1 := le_rank_aggAction _ t ht
    rw [hb] at h1
    simp only [actionRank] at h1
    have h2 : actionRank (aggAction ((evaluate candidates pack).1)) ≤ 2 :=
      rank_aggAction_le _ 2 (fun u _ => actionRank_le_two u.action)
    exact action_of_rank_two _ (Nat.le_antisymm h2 h1)
  · rintro hnb ⟨t, ht, hf⟩
    rw [hsnd]
    have h1 := le_rank_aggAction _ t ht
    rw [hf] at h1
    simp only [actionRank] at h1
    have h2 : actionRank (aggAction ((evaluate candidates pack).1)) ≤ 1 :=
      rank_aggAction_le _ 1 (fun u hu => rank_le_one_of_ne_block u.action (hnb u hu))
    exact action_of_rank_one _ (Nat.le_antisymm h2 h1)

/-- Witness for claim C2 at a concrete input: with both the blocking
biometric tag and a flag tag triggered, the aggregate action is block. -/
theorem evaluate_action_dominance_witness :
    (evaluate ["ProhibitedBiometric", "HighRiskAI"] activePack).2.2 = Action.block :=
  (evaluate_action_dominance ["ProhibitedBiometric", "HighRiskAI"] activePack).1
    (by decide)

/-- Claim C3: evaluation is deterministic: any two runs of the full
pipeline (Detector, Evaluator, Composer) on the same text against the
same policy pack produce identical Decision fields. -/
theorem pipeline_deterministic (text : String) (pack : PolicyPack)
    (d1 d2 : Decision) (h1 : d1 = pipeline text pack)
    (h2 : d2 = pipeline text pack) :
    d1.decision = d2.decision ∧ d1.risk_level = d2.risk_level ∧
    d1.confidence_score = d2.confidence_score ∧
    d1.explanation = d2.explanation ∧ d1.policy_tags = d2.policy_tags ∧
    d1.policy_version = d2.policy_version := by
  subst h1
  subst h2
  exact ⟨rfl, rfl, rfl, rfl, rfl, rfl⟩

/-- Witness for claim C3: two runs on the scenario-1 text against the
active pack agree on every Decision field. -/
theorem pipeline_deterministic_witness :
    (pipeline "We will scrape faces from social media to build a facial recognition database" activePack).decision
      = (pipeline "We will scrape faces from social media to build a facial recognition database" activePack).decision ∧
    (pipeline "We will scrape faces from social media to build a facial recognition database" activePack).risk_level
      = (pipeline "We will scrape faces from social media to build a facial recognition database" activePack).risk_level ∧
    (pipeline "We will scrape faces from social media to build a facial recognition database" activePack).confidence_score
      = (pipeline "We will scrape faces from social media to build a facial recognition database" activePack).confidence_score ∧
    (pipeline "We will scrape faces from social media to build a facial recognition database" activePack).explanation
      = (pipeline "We will scrape faces from social media to build a facial recognition database" activePack).explanation ∧
    (pipeline "We will scrape faces from social media to build a facial recognition database" activePack).policy_tags
      = (pipeline "We will scrape faces from social media to build a facial recognition database" activePack).policy_tags ∧
    (pipeline "We will scrape faces from social media to build a facial recognition database" activePack).policy_version
      = (pipeline "We will scrape faces from social media to build a facial recognition database" activePack).policy_version :=
  pipeline_deterministic
    "We will scrape faces from social media to build a facial recognition database"
    activePack _ _ rfl rfl

/-- Claim C4: evaluating the scenario-1 text against the active policy
pack yields decision block, risk level unacceptable, and the policy tags
exactly the one-element list ProhibitedBiometric. -/
theorem scenario_biometric_block :
    (pipeline "We will scrape faces from social media to build a facial recognition database" activePack).decision = Action.block ∧
    (pipeline "We will scrape faces from social media to build a facial recognition database" activePack).risk_level = RiskTier.unacceptable ∧
    (pipeline "We will scrape faces from social media to build a facial recognition database" activePack).policy_tags = ["ProhibitedBiometric"] := by
  decide

/-- Claim C5: the Decision Composer is a total function, and whenever no
policy tag is triggered the resulting Decision is exactly decision
allow, risk level minimal, and an empty triggered-tag list. -/
theorem compose_total_empty_allow (text : String) (pack : PolicyPack)
    (h : (pipeline text pack).policy_tags = []) :
    (pipeline text pack).decision = Action.allow ∧
    (pipeline text pack).risk_level = RiskTier.minimal ∧
    (pipeline text pack).policy_tags = [] := by
  have htags : ((evaluate (detect text pack) pack).1).map (fun t => t.name) = [] := h
  have hnil : (evaluate (detect text pack) pack).1 = [] :=
    List.map_eq_nil_iff.mp htags
  refine ⟨?_, ?_, h⟩
  · show aggAction ((evaluate (detect text pack) pack).1) = Action.allow
    rw [hnil]
    rfl
  · show aggTier ((evaluate (detect text pack) pack).1) = RiskTier.minimal
    rw [hnil]
    rfl

/-- Witness for claim C5 at the scenario-4 text: the weather-forecast
input triggers no tag and yields the allow, minimal, empty decision. -/
theorem compose_total_empty_allow_witness :
    (pipeline "Weather forecast for tomorrow" activePack).decision = Action.allow ∧
    (pipeline "Weather forecast for tomorrow" activePack).risk_level = RiskTier.minimal ∧
    (pipeline "Weather forecast for tomorrow" activePack).policy_tags = [] :=
  compose_total_empty_allow "Weather forecast for tomorrow" activePack (by decide)


/-- Modelled from the spec: the chain signature.  Section 4.5 signs the
canonical encoding of sequence, previous signature, decision snapshot
and timestamp with a process-wide secret key (HMAC-style).  The keyed
signature together with the canonical encoding is modelled as an ideal,
collision-free MAC: the free term constructor over its inputs, with a
distinguished genesis constant for the previous signature of event 0. -/
inductive Sig where
  | genesis : Sig
  | mac (secret : Nat) (seq : Nat) (prev : Sig) (snap : Decision)
      (timestamp : Nat) : Sig
  deriving DecidableEq

/-- Modelled from the spec: an AuditEvent stores event_id, timestamp,
user, client_id, the decision snapshot, the sequence number, the
signature, and the previous-signature reference (spec section 3). -/
structure AuditEvent where
  event_id : Nat
  timestamp : Nat
  user : String
  client_id : String
  snap : Decision
  seq : Nat
  prevSig : Sig
  sig : Sig
  deriving DecidableEq

/-- Modelled from the spec: the keyed signature of one event over the
stored sequence, previous signature, snapshot and timestamp. -/
def signFn (secret seq : Nat) (prev : Sig) (snap : Decision) (ts : Nat) : Sig :=
  Sig.mac secret seq prev snap ts

/-- Signature at the current chain tail; the genesis constant for an
empty chain. -/
def tailSig (l : List AuditEvent) : Sig :=
  (Option.map (fun e => e.sig) (l[l.length - 1]?)).getD Sig.genesis

/-- Modelled from the spec: the event assembled by the append protocol
of section 4.5: next sequence number, previous signature taken from the
chain tail, signature keyed over the stored chained fields. -/
def nextEvent (secret : Nat) (chain : List AuditEvent) (eid ts : Nat)
    (user client : String) (snap : Decision) : AuditEvent :=
  ⟨eid, ts, user, client, snap, chain.length, tailSig chain,
    signFn secret chain.length (tailSig chain) snap ts⟩

/-- Modelled from the spec: durable append of one decision event. -/
def appendEvent (secret : Nat) (chain : List AuditEvent) (eid ts : Nat)
    (user client : String) (snap : Decision) : List AuditEvent :=
  chain ++ [nextEvent secret chain eid ts user client snap]

/-- Chains produced by the append protocol; the writer is the only
mutator of the store, so every committed store has this shape. -/
inductive Built (secret : Nat) : List AuditEvent → Prop
  | nil : Built secret []
  | snoc (chain : List AuditEvent) (eid ts : Nat) (user client : String)
      (snap : Decision) : Built secret chain →
      Built secret (appendEvent secret chain eid ts user client snap)

/-- The previous signature expected at index n when replaying: the
genesis constant at n = 0, the stored signature of event n-1 after. -/
def prevSigSpec (chain : List AuditEvent) : Nat → Sig
  | 0 => Sig.genesis
  | n + 1 => (Option.map (fun e => e.sig) (chain[n]?)).getD Sig.genesis

/-- Modelled from the spec: per-event verification recomputes the
signature from the stored fields and the claimed previous signature and
compares for equality (spec section 4.5, export verification), together
with the previous-signature linkage to the predecessor. -/
def checkEvent (secret : Nat) (prev : Sig) (e : AuditEvent) : Bool :=
  decide (e.prevSig = prev) &&
    decide (e.sig = signFn secret e.seq e.prevSig e.snap e.timestamp)

/-- Modelled from the spec: chain replay verification from a given
previous signature, checking every event in order. -/
def verifyChain (secret : Nat) (prev : Sig) : List AuditEvent → Bool
  | [] => true
  | e :: rest => checkEvent secret prev e && verifyChain secret e.sig rest

/-- Verification of event n: replay of the chain prefix up to and
including index n from the genesis constant. -/
def verifyUpTo (secret : Nat) (chain : List AuditEvent) (n : Nat) : Bool :=
  verifyChain secret Sig.genesis (chain.take (n + 1))

/-- The previous signature that replay threads into position k of a
list: the starting signature at k = 0, the stored signature of the
element before position k after. -/
def threadPrev (p : Sig) (l : List AuditEvent) : Nat → Sig
  | 0 => p
  | k + 1 => (Option.map (fun e => e.sig) (l[k]?)).getD Sig.genesis

/-- Mutation of exactly one of the chained stored fields of an event:
sequence number, previous-signature reference, decision snapshot,
timestamp, or signature, the remaining four being kept.  The unsigned
fields event_id, user, client_id are unconstrained because chain
verification never reads them. -/
def MutatedChainField (e0 e1 : AuditEvent) : Prop :=
  (e1.seq ≠ e0.seq ∧ e1.prevSig = e0.prevSig ∧ e1.snap = e0.snap ∧
    e1.timestamp = e0.timestamp ∧ e1.sig = e0.sig) ∨
  (e1.seq = e0.seq ∧ e1.prevSig ≠ e0.prevSig ∧ e1.snap = e0.snap ∧
    e1.timestamp = e0.timestamp ∧ e1.sig = e0.sig) ∨
  (e1.seq = e0.seq ∧ e1.prevSig = e0.prevSig ∧ e1.snap ≠ e0.snap ∧
    e1.timestamp = e0.timestamp ∧ e1.sig = e0.sig) ∨
  (e1.seq = e0.seq ∧ e1.prevSig = e0.prevSig ∧ e1.snap = e0.snap ∧
    e1.timestamp ≠ e0.timestamp ∧ e1.sig = e0.sig) ∨
  (e1.seq = e0.seq ∧ e1.prevSig = e0.prevSig ∧ e1.snap = e0.snap ∧
    e1.timestamp = e0.timestamp ∧ e1.sig ≠ e0.sig)

instance (e0 e1 : AuditEvent) : Decidable (MutatedChainField e0 e1) := by
  unfold MutatedChainField
  infer_instance

lemma threadPrev_cons (p : Sig) (e0 : AuditEvent) (rest : List AuditEvent)
    (m : Nat) : threadPrev p (e0 :: rest) (m + 1) = threadPrev e0.sig rest m := by
  cases m with
  | zero => simp [threadPrev]
  | succ j => simp [threadPrev]

lemma verifyChain_false_at (secret : Nat) :
    ∀ (l : List AuditEvent) (p : Sig) (k : Nat) (e : AuditEvent),
      l[k]? = some e →
      checkEvent secret (threadPrev p l k) e = false →
      verifyChain secret p l = false := by
  intro l
  induction l with
  | nil =>
    intro p k e hg _
    simp at hg
  | cons e0 rest ih =>
    intro p k e hg hchk
    cases k with
    | zero =>
      have he : e0 = e := by
        simpa using hg
      subst he
      show (checkEvent secret p e0 && verifyChain secret e0.sig rest) = false
      have hp : threadPrev p (e0 :: rest) 0 = p := rfl
      rw [hp] at hchk
      rw [hchk, Bool.false_and]
    | succ m =>
      have hg2 : rest[m]? = some e := by
        simpa using hg
      have hchk2 : checkEvent secret (threadPrev e0.sig rest m) e = false := by
        rw [← threadPrev_cons p e0 rest m]
        exact hchk
      have hrec := ih e0.sig m e hg2 hchk2
      show (checkEvent secret p e0 && verifyChain secret e0.sig rest) = false
      rw [hrec, Bool.and_false]

lemma checkEvent_mut (secret : Nat) (prev : Sig) (e0 e1 : AuditEvent)
    (h0p : e0.prevSig = prev)
    (h0s : e0.sig = signFn secret e0.seq e0.prevSig e0.snap e0.timestamp)
    (hm : MutatedChainField e0 e1) :
    checkEvent secret prev e1 = false := by
  rcases hm with ⟨h1, h2, h3, h4, h5⟩ | ⟨h1, h2, h3, h4, h5⟩ |
    ⟨h1, h2, h3, h4, h5⟩ | ⟨h1, h2, h3, h4, h5⟩ | ⟨h1, h2, h3, h4, h5⟩
  · have hs : decide
        (e1.sig = signFn secret e1.seq e1.prevSig e1.snap e1.timestamp) = false := by
      rw [decide_eq_false_iff_not]
      intro hcon
      rw [h5, h0s] at hcon
      unfold signFn at hcon
      rw [Sig.mac.injEq] at hcon
      exact h1 hcon.2.1.symm
    unfold checkEvent
    rw [hs, Bool.and_false]
  · have hp : decide (e1.prevSig = prev) = false := by
      rw [decide_eq_false_iff_not]
      rw [← h0p]
      exact h2
    unfold checkEvent
    rw [hp, Bool.false_and]
  · have hs : decide
        (e1.sig = signFn secret e1.seq e1.prevSig e1.snap e1.timestamp) = false := by
      rw [decide_eq_false_iff_not]
      intro hcon
      rw [h5, h0s] at hcon
      unfold signFn at hcon
      rw [Sig.mac.injEq] at hcon
      exact h3 hcon.2.2.2.1.symm
    unfold checkEvent
    rw [hs, Bool.and_false]
  · have hs : decide
        (e1.sig = signFn secret e1.seq e1.prevSig e1.snap e1.timestamp) = false := by
      rw [decide_eq_false_iff_not]
      intro hcon
      rw [h5, h0s] at hcon
      unfold signFn at hcon
      rw [Sig.mac.injEq] at hcon
      exact h4 hcon.2.2.2.2.symm
    unfold checkEvent
    rw [hs, Bool.and_false]
  · have hs : decide
        (e1.sig = signFn secret e1.seq e1.prevSig e1.snap e1.timestamp) = false := by
      rw [decide_eq_false_iff_not]
      intro hcon
      rw [h1, h2, h3, h4] at hcon
      exact h5 (hcon.trans h0s.symm)
    unfold checkEvent
    rw [hs, Bool.and_false]

lemma built_fields (secret : Nat) (chain : List AuditEvent)
    (hb : Built secret chain) :
    ∀ n e, chain[n]? = some e →
      e.prevSig = prevSigSpec chain n ∧
      e.sig = signFn secret e.seq e.prevSig e.snap e.timestamp := by
  induction hb with
  | nil =>
    intro n e hg
    simp at hg
  | snoc cs eid ts user client snap hc ih =>
    intro n e hg
    unfold appendEvent at hg ⊢
    by_cases hn : n < cs.length
    · rw [List.getElem?_append_left hn] at hg
      have hres := ih n e hg
      refine ⟨?_, hres.2⟩
      rw [hres.1]
      cases n with
      | zero => rfl
      | succ m =>
        have hm : m < cs.length := by omega
        show (Option.map (fun e => e.sig) (cs[m]?)).getD Sig.genesis
          = (Option.map (fun e => e.sig)
              ((cs ++ [nextEvent secret cs eid ts user client snap])[m]?)).getD Sig.genesis
        rw [List.getElem?_append_left hm]
    · by_cases hneq : n = cs.length
      · subst hneq
        rw [List.getElem?_concat_length] at hg
        have he : nextEvent secret cs eid ts user client snap = e := by
          injection hg
        subst he
        refine ⟨?_, rfl⟩
        show tailSig cs =
          prevSigSpec (cs ++ [nextEvent secret cs eid ts user client snap]) cs.length
        cases cs with
        | nil => rfl
        | cons a as =>
          have hl : as.length < (a :: as).length := by simp
          show (Option.map (fun e => e.sig) ((a :: as)[(a :: as).length - 1]?)).getD Sig.genesis
            = (Option.map (fun e => e.sig)
                (((a :: as) ++
                  [nextEvent secret (a :: as) eid ts user client snap])[as.length]?)).getD
              Sig.genesis
          rw [List.getElem?_append_left hl]
          have hidx : (a :: as).length - 1 = as.length := by simp
          rw [hidx]
      · have hnone :
            (cs ++ [nextEvent secret cs eid ts user client snap])[n]? = none := by
          apply List.getElem?_eq_none
          simp
          omega
        rw [hnone] at hg
        cases hg

/-- Claim C1, as amended: for every chain produced by the append
protocol, recomputing the keyed signature of event n over its stored
sequence, snapshot and timestamp together with the stored signature of
event n-1 (the genesis constant at n = 0) reproduces the stored
signature of event n; and mutating any one of the chained stored fields
of event k (sequence, previous-signature, decision snapshot, timestamp,
or signature) makes verification fail for every event with index at
least k.  The amendment restricts the mutated field to the chained
fields: the stored fields event_id, user and client_id lie outside the
signed payload of section 4.5 and their mutation is not detected (see
the counterexample theorem). -/
theorem chain_integrity (secret : Nat) (chain : List AuditEvent)
    (hb : Built secret chain) :
    (∀ n e, chain[n]? = some e →
      e.prevSig = prevSigSpec chain n ∧
      e.sig = signFn secret e.seq (prevSigSpec chain n) e.snap e.timestamp) ∧
    (∀ k e0 e1, chain[k]? = some e0 → MutatedChainField e0 e1 →
      ∀ n, k ≤ n → verifyUpTo secret (chain.set k e1) n = false) := by
  have hA := built_fields secret chain hb
  constructor
  · intro n e hg
    have h := hA n e hg
    refine ⟨h.1, ?_⟩
    rw [← h.1]
    exact h.2
  · intro k e0 e1 hget hm n hkn
    have hklen : k < chain.length := by
      rcases List.getElem?_eq_some.mp hget with ⟨h, _⟩
      exact h
    have he0 := hA k e0 hget
    unfold verifyUpTo
    apply verifyChain_false_at secret _ Sig.genesis k e1
    · rw [List.getElem?_take_of_lt (by omega : k < n + 1)]
      rw [List.getElem?_set_self hklen]
    · have hthread :
          threadPrev Sig.genesis ((chain.set k e1).take (n + 1)) k = e0.prevSig := by
        cases k with
        | zero =>
          show Sig.genesis = e0.prevSig
          rw [he0.1]
          rfl
        | succ m =>
          have hmlt : m < n + 1 := by omega
          obtain ⟨d, hd⟩ : ∃ d, chain[m]? = some d := by
            cases hcm : chain[m]? with
            | none =>
              rw [List.getElem?_eq_none_iff] at hcm
              omega
            | some d => exact ⟨d, rfl⟩
          show (Option.map (fun e => e.sig)
              (((chain.set (m + 1) e1).take (n + 1))[m]?)).getD Sig.genesis
            = e0.prevSig
          rw [List.getElem?_take_of_lt hmlt,
            List.getElem?_set_ne (by omega : m + 1 ≠ m), hd]
          rw [he0.1]
          simp [prevSigSpec, hd]
      rw [hthread]
      exact checkEvent_mut secret e0.prevSig e0 e1 rfl he0.2 hm

/-- Decision snapshot used by the concrete chain below. -/
def cexDecision : Decision :=
  ⟨Action.block, RiskTier.unacceptable, 80,
    "Triggered policies: ProhibitedBiometric.", ["ProhibitedBiometric"],
    "pack-2025-01-01-v1"⟩

/-- A one-event chain produced by the append protocol with secret 7. -/
def cexChain : List AuditEvent :=
  appendEvent 7 [] 1 100 "alice" "client-1" cexDecision

/-- Event 0 of the chain with only the user field changed. -/
def cexUserMut : AuditEvent :=
  ⟨1, 100, "mallory", "client-1", cexDecision, 0, Sig.genesis,
    signFn 7 0 Sig.genesis cexDecision 100⟩

/-- An alternative decision snapshot, different from cexDecision. -/
def cexDecisionAlt : Decision :=
  ⟨Action.allow, RiskTier.minimal, 90, "No compliance policy was triggered.",
    [], "pack-2025-01-01-v1"⟩

/-- Event 0 of the chain with only the decision snapshot changed. -/
def cexSnapMut : AuditEvent :=
  ⟨1, 100, "alice", "client-1", cexDecisionAlt, 0, Sig.genesis,
    signFn 7 0 Sig.genesis cexDecision 100⟩

/-- Counterexample to claim C1 as stated: the user field is a stored
field of the audit event (spec section 3) but lies outside the signed
payload of section 4.5, so mutating it leaves verification succeeding.
In this chain built by the append protocol, event 0 has its stored user
changed from alice to mallory, yet verification of event 0 (an event
with index at least 0) still passes. -/
theorem chain_integrity_cex :
    Built 7 cexChain ∧
    ((cexChain.set 0 cexUserMut)[0]?).map (fun e => e.user) ≠
      (cexChain[0]?).map (fun e => e.user) ∧
    verifyUpTo 7 (cexChain.set 0 cexUserMut) 0 = true := by
  refine ⟨?_, by decide, by decide⟩
  exact Built.snoc [] 1 100 "alice" "client-1" cexDecision Built.nil

/-- Witness for claim C1 at a concrete chain: mutating the decision
snapshot of event 0 makes verification of event 0 fail. -/
theorem chain_integrity_witness :
    verifyUpTo 7 (cexChain.set 0 cexSnapMut) 0 = false :=
  (chain_integrity 7 cexChain
      (Built.snoc [] 1 100 "alice" "client-1" cexDecision Built.nil)).2
    0 (nextEvent 7 [] 1 100 "alice" "client-1" cexDecision) cexSnapMut
    (by decide) (by decide) 0 (by decide)

/-- Embedded from src/frontend/src/pages/Evaluate.js (formData): the
form state of the Evaluate page. -/
structure FormData where
  client_id : String
  user : String
  input_type : String
  input : String
  deriving DecidableEq

/-- A request as dispatched by the frontend: a JSON post of the form
state, or a multipart post of named fields plus an image file. -/
inductive SentRequest where
  | jsonPost (url : String) (body : FormData) : SentRequest
  | multipartPost (url : String) (text client_id user input_type : String)
      (image : String) : SentRequest
  deriving DecidableEq

/-- Embedded from src/frontend/src/pages/Evaluate.js (evaluateMutation):
with a selected file the request is multipart form data to the
with-image endpoint with input_type forced to text_with_image; without
one it is a JSON post of the unchanged form data to the text endpoint. -/
def evaluateMutationSend (selectedFile : Option String) (data : FormData) :
    SentRequest :=
  match selectedFile with
  | some f => SentRequest.multipartPost "/api/v1/evaluate/with-image"
      data.input data.client_id data.user "text_with_image" f
  | none => SentRequest.jsonPost "/api/v1/evaluate/" data

/-- Whitespace characters recognized by the blank-input check. -/
def isSpaceChar (ch : Char) : Bool :=
  ch == ' ' || ch == '\t' || ch == '\n' || ch == '\r'

/-- Whether a string is empty or only whitespace; the frontend guard
tests the trimmed input for emptiness (Evaluate.js handleSubmit). -/
def isBlank (s : String) : Bool :=
  s.toList.all isSpaceChar

/-- Embedded from src/frontend/src/pages/Evaluate.js (handleSubmit): a
blank input aborts submission and no request is sent; otherwise the
mutation dispatches the form data. -/
def handleSubmit (data : FormData) (selectedFile : Option String) :
    Option SentRequest :=
  if isBlank data.input then none
  else some (evaluateMutationSend selectedFile data)

/-- Modelled from the spec: the error taxonomy of section 7. -/
inductive EngineError where
  | validationError : EngineError
  | unknownPolicyVersion : EngineError
  | noActivePack : EngineError
  | tamperDetected : EngineError
  | writeFailure : EngineError
  deriving DecidableEq

/-- Modelled from the spec: the body of POST evaluate (section 6). -/
structure EvalRequest where
  client_id : String
  user : String
  input : String
  deriving DecidableEq

/-- Modelled from the spec: the response of POST evaluate (section 6). -/
structure EvalResponse where
  decision : Action
  risk_level : RiskTier
  confidence_score : Nat
  explanation : String
  policy_tags : List String
  policy_version : String
  audit_event_id : Nat
  deriving DecidableEq

/-- Response assembled from a Decision and the new audit event id. -/
def mkResponse (d : Decision) (eid : Nat) : EvalResponse :=
  ⟨d.decision, d.risk_level, d.confidence_score, d.explanation,
    d.policy_tags, d.policy_version, eid⟩

/-- Modelled from the spec: the evaluation service state: active pack,
signing secret, audit chain, clock, and next event id. -/
structure ServiceState where
  pack : PolicyPack
  secret : Nat
  auditChain : List AuditEvent
  clock : Nat
  nextId : Nat
  deriving DecidableEq

/-- Modelled from the spec: POST evaluate.  A blank input is rejected
with a ValidationError before any detection runs and no audit event is
created; otherwise the pipeline runs and the decision is appended to
the audit chain (spec sections 6 and 7). -/
def handleEvaluate (st : ServiceState) (req : EvalRequest) :
    Except EngineError EvalResponse × ServiceState :=
  if isBlank req.input then (Except.error EngineError.validationError, st)
  else
    let d := pipeline req.input st.pack
    let chain2 := appendEvent st.secret st.auditChain st.nextId st.clock
      req.user req.client_id d
    (Except.ok (mkResponse d st.nextId),
      ⟨st.pack, st.secret, chain2, st.clock + 1, st.nextId + 1⟩)

/-- JSON-like field values of the wire contract. -/
inductive JValue where
  | jstr (s : String) : JValue
  | jnum (n : Nat) : JValue
  | jarr (l : List String) : JValue
  deriving DecidableEq

/-- Wire name of an action. -/
def actionName : Action → String
  | Action.block => "block"
  | Action.flag => "flag"
  | Action.allow => "allow"

/-- Wire name of a risk tier. -/
def tierName : RiskTier → String
  | RiskTier.unacceptable => "unacceptable"
  | RiskTier.high => "high"
  | RiskTier.limited => "limited"
  | RiskTier.minimal => "minimal"

/-- Embedded from src/frontend/src/pages/Evaluate.js and spec section 6:
the JSON body of POST evaluate for a text evaluation. -/
def encodeTextRequest (q : EvalRequest) : List (String × JValue) :=
  [("client_id", JValue.jstr q.client_id), ("user", JValue.jstr q.user),
   ("input_type", JValue.jstr "text"), ("input", JValue.jstr q.input)]

/-- Modelled from the spec: the JSON body of the evaluation response
(spec section 6, the compatibility contract). -/
def encodeEvalResponse (r : EvalResponse) : List (String × JValue) :=
  [("decision", JValue.jstr (actionName r.decision)),
   ("risk_level", JValue.jstr (tierName r.risk_level)),
   ("confidence_score", JValue.jnum r.confidence_score),
   ("explanation", JValue.jstr r.explanation),
   ("policy_tags", JValue.jarr r.policy_tags),
   ("policy_version", JValue.jstr r.policy_version),
   ("audit_event_id", JValue.jnum r.audit_event_id)]

/-- Claim C6: for every successful text evaluation, the request body
carries exactly the fields client_id, user, input_type (fixed to text)
and input, and the response carries exactly the fields decision,
risk_level, confidence_score, explanation, policy_tags, policy_version
and audit_event_id. -/
theorem evaluate_contract_fields (st : ServiceState) (q : EvalRequest)
    (resp : EvalResponse) (_hok : (handleEvaluate st q).1 = Except.ok resp) :
    (encodeTextRequest q).map Prod.fst =
      ["client_id", "user", "input_type", "input"] ∧
    (encodeTextRequest q).lookup "input_type" = some (JValue.jstr "text") ∧
    (encodeEvalResponse resp).map Prod.fst =
      ["decision", "risk_level", "confidence_score", "explanation",
       "policy_tags", "policy_version", "audit_event_id"] := by
  refine ⟨rfl, ?_, rfl⟩
  simp [encodeTextRequest, List.lookup]

/-- A concrete service state seeded with the active pack. -/
def demoState : ServiceState := ⟨activePack, 7, [], 0, 1⟩

/-- Witness for claim C6 at a concrete successful evaluation. -/
theorem evaluate_contract_fields_witness :
    (encodeTextRequest
        ⟨"demo-client", "demo-user", "Weather forecast for tomorrow"⟩).map Prod.fst =
      ["client_id", "user", "input_type", "input"] ∧
    (encodeTextRequest
        ⟨"demo-client", "demo-user", "Weather forecast for tomorrow"⟩).lookup
      "input_type" = some (JValue.jstr "text") ∧
    (encodeEvalResponse
        (mkResponse (pipeline "Weather forecast for tomorrow" activePack) 1)).map
      Prod.fst =
      ["decision", "risk_level", "confidence_score", "explanation",
       "policy_tags", "policy_version", "audit_event_id"] :=
  evaluate_contract_fields demoState
    ⟨"demo-client", "demo-user", "Weather forecast for tomorrow"⟩
    (mkResponse (pipeline "Weather forecast for tomorrow" activePack) 1)
    rfl

/-- Claim C7: an evaluation request whose input text is empty or only
whitespace is rejected with a ValidationError before any detection runs,
the error is surfaced to the caller, the audit store is unchanged, and
the frontend likewise sends no request for a blank input. -/
theorem blank_input_rejected (st : ServiceState) (req : EvalRequest)
    (data : FormData) (file : Option String)
    (h1 : isBlank req.input = true) (h2 : isBlank data.input = true) :
    (handleEvaluate st req).1 = Except.error EngineError.validationError ∧
    ((handleEvaluate st req).2).auditChain = st.auditChain ∧
    (handleEvaluate st req).2 = st ∧
    handleSubmit data file = none := by
  simp [handleEvaluate, handleSubmit, h1, h2]

/-- Witness for claim C7: a whitespace-only input is rejected with no
audit event and no frontend request. -/
theorem blank_input_rejected_witness :
    (handleEvaluate demoState ⟨"demo-client", "demo-user", "   "⟩).1 =
      Except.error EngineError.validationError ∧
    ((handleEvaluate demoState ⟨"demo-client", "demo-user", "   "⟩).2).auditChain =
      demoState.auditChain ∧
    (handleEvaluate demoState ⟨"demo-client", "demo-user", "   "⟩).2 = demoState ∧
    handleSubmit ⟨"demo-client", "demo-user", "text", "   "⟩ none = none :=
  blank_input_rejected demoState ⟨"demo-client", "demo-user", "   "⟩
    ⟨"demo-client", "demo-user", "text", "   "⟩ none (by decide) (by decide)

/-- Claim C10: the Evaluate page chooses the endpoint solely by whether
an image file is selected: with a file the request is multipart to the
with-image endpoint with input_type forced to text_with_image, whatever
the form state holds; without one it is a JSON post of the unchanged
form data to the text endpoint. -/
theorem evaluate_mutation_dispatch (data : FormData) (file : Option String) :
    (∀ f, file = some f →
      evaluateMutationSend file data = SentRequest.multipartPost
        "/api/v1/evaluate/with-image" data.input data.client_id data.user
        "text_with_image" f) ∧
    (file = none →
      evaluateMutationSend file data =
        SentRequest.jsonPost "/api/v1/evaluate/" data) := by
  constructor
  · intro f hf
    subst hf
    rfl
  · intro hf
    subst hf
    rfl

/-- Witness for claim C10: with a selected image the multipart request
overrides the form input_type text with text_with_image. -/
theorem evaluate_mutation_dispatch_witness :
    evaluateMutationSend (some "photo.png")
        ⟨"demo-client", "demo-user", "text", "Chatbot for customer service"⟩ =
      SentRequest.multipartPost "/api/v1/evaluate/with-image"
        "Chatbot for customer service" "demo-client" "demo-user"
        "text_with_image" "photo.png" :=
  (evaluate_mutation_dispatch
      ⟨"demo-client", "demo-user", "text", "Chatbot for customer service"⟩
      (some "photo.png")).1 "photo.png" rfl

/-- Embedded from src/unnamed/part_002 (the Audit page filter state) and
spec section 4.6: the optional query filters and the result limit. -/
structure AuditFilters where
  decision : Option Action
  risk_level : Option RiskTier
  user : Option String
  limit : Option Nat
  deriving DecidableEq

/-- Matching of one optional filter against a value: an absent filter
matches everything. -/
def matchOpt {α : Type} [DecidableEq α] (f : Option α) (v : α) : Bool :=
  match f with
  | none => true
  | some x => decide (x = v)

/-- Modelled from the spec: conjunctive filter matching on decision,
risk level and user (spec section 4.6). -/
def matchesFilters (f : AuditFilters) (e : AuditEvent) : Bool :=
  matchOpt f.decision e.snap.decision &&
    matchOpt f.risk_level e.snap.risk_level && matchOpt f.user e.user

/-- Default result limit, the Audit page default (src/unnamed/part_002). -/
def defaultLimit : Nat := 50

/-- Modelled from the spec: queryEvents: read-only conjunctive filtering
of the audit store, ordered most recent first, bounded by the limit with
a fixed default when unspecified; no matches yield the empty sequence,
not an error (spec section 4.6).  The function only reads the store and
returns a list, so it cannot mutate state. -/
def queryEvents (f : AuditFilters) (store : List AuditEvent) :
    List AuditEvent :=
  ((store.filter (matchesFilters f)).reverse).take
    (f.limit.getD defaultLimit)

/-- Claim C8: for every filter combination, queryEvents returns the
events most recent first (descending sequence number, given the store in
append order), applies the supplied filters conjunctively, bounds the
result by the limit (defaulting to a fixed value), and returns the empty
sequence rather than an error when nothing matches; it never mutates the
store, being a pure function of it. -/
theorem queryEvents_contract (f : AuditFilters) (store : List AuditEvent)
    (hord : List.Pairwise (fun e1 e2 => e1.seq < e2.seq) store) :
    (∀ e ∈ queryEvents f store, matchesFilters f e = true) ∧
    (queryEvents f store).length ≤ f.limit.getD defaultLimit ∧
    List.Pairwise (fun e1 e2 => e2.seq < e1.seq) (queryEvents f store) ∧
    ((∀ e ∈ store, matchesFilters f e = false) → queryEvents f store = []) := by
  refine ⟨?_, ?_, ?_, ?_⟩
  · intro e he
    unfold queryEvents at he
    have h1 := List.mem_of_mem_take he
    rw [List.mem_reverse] at h1
    exact (List.mem_filter.mp h1).2
  · unfold queryEvents
    rw [List.length_take]
    exact Nat.min_le_left _ _
  · unfold queryEvents
    apply List.Pairwise.sublist (List.take_sublist _ _)
    rw [List.pairwise_reverse]
    exact hord.filter (matchesFilters f)
  · intro hnone
    unfold queryEvents
    have hfil : store.filter (matchesFilters f) = [] := by
      rw [List.filter_eq_nil_iff]
      intro e he
      rw [hnone e he]
      simp
    rw [hfil]
    simp

/-- A second concrete audit event with sequence number 1. -/
def demoEventB : AuditEvent :=
  ⟨2, 101, "bob", "client-1", cexDecisionAlt, 1,
    signFn 7 0 Sig.genesis cexDecision 100,
    signFn 7 1 (signFn 7 0 Sig.genesis cexDecision 100) cexDecisionAlt 101⟩

/-- A concrete two-event store in append order. -/
def demoStore : List AuditEvent :=
  [nextEvent 7 [] 1 100 "alice" "client-1" cexDecision, demoEventB]

/-- Concrete filters selecting block decisions with a limit of 10. -/
def demoFilters : AuditFilters := ⟨some Action.block, none, none, some 10⟩

/-- Witness for claim C8 at a concrete store and filter combination. -/
theorem queryEvents_contract_witness :
    (queryEvents demoFilters demoStore).length ≤
      demoFilters.limit.getD defaultLimit :=
  (queryEvents_contract demoFilters demoStore (by decide)).2.1

/-- Embedded from src/backend/init.sql: one row of the policy_packs
table. -/
structure PackRow where
  name : String
  version : String
  description : String
  is_active : Bool
  deriving DecidableEq

/-- Embedded from src/backend/init.sql: INSERT with ON CONFLICT
(version) DO NOTHING: the row is added only when its version is not yet
present, so the version column stays unique. -/
def insertPackOnConflict (rows : List PackRow) (r : PackRow) : List PackRow :=
  if rows.any (fun p => p.version == r.version) then rows else rows ++ [r]

/-- Embedded from src/backend/init.sql: the seed insert of the
EU AI Act Compliance Pack, version pack-2025-01-01-v1, active. -/
def seedRows : List PackRow :=
  insertPackOnConflict []
    ⟨"EU AI Act Compliance Pack", "pack-2025-01-01-v1",
      "Default policy pack for EU AI Act compliance", true⟩

/-- Modelled from the spec: publishing a new historical pack inserts it
inactive; activation is a separate step (spec section 3: exactly one
pack may be active at a time, historical packs remain addressable). -/
def publishPack (rows : List PackRow) (r : PackRow) : List PackRow :=
  insertPackOnConflict rows ⟨r.name, r.version, r.description, false⟩

/-- Modelled from the spec: switching the single active pack: the pack
with the given version becomes active, every other pack inactive. -/
def activateVersion (v : String) (rows : List PackRow) : List PackRow :=
  rows.map (fun p => ⟨p.name, p.version, p.description, p.version == v⟩)

/-- Registry states reachable from the seeded database by publishing
and activation. -/
inductive RegistryReachable : List PackRow → Prop
  | seed : RegistryReachable seedRows
  | publish (r : PackRow) (rows : List PackRow) :
      RegistryReachable rows → RegistryReachable (publishPack rows r)
  | activate (v : String) (rows : List PackRow) :
      RegistryReachable rows → RegistryReachable (activateVersion v rows)

/-- Number of rows marked active. -/
def activeCount (rows : List PackRow) : Nat :=
  (rows.filter (fun p => p.is_active)).length

/-- The version column of the table. -/
def versionsOf (rows : List PackRow) : List String :=
  rows.map (fun p => p.version)

lemma versionsOf_insert_nodup (rows : List PackRow) (r : PackRow)
    (h : (versionsOf rows).Nodup) :
    (versionsOf (insertPackOnConflict rows r)).Nodup := by
  unfold insertPackOnConflict
  split
  · exact h
  · rename_i hany
    unfold versionsOf
    rw [List.map_append]
    apply List.Nodup.append h (List.nodup_singleton _)
    intro v hv1 hv2
    rcases List.mem_map.mp hv1 with ⟨p, hp, hpv⟩
    rw [List.mem_singleton] at hv2
    apply hany
    rw [List.any_eq_true]
    refine ⟨p, hp, ?_⟩
    rw [beq_iff_eq, hpv]
    exact hv2

lemma versionsOf_activateVersion (v : String) (rows : List PackRow) :
    versionsOf (activateVersion v rows) = versionsOf rows := by
  unfold versionsOf activateVersion
  rw [List.map_map]
  rfl

lemma activeCount_publishPack (rows : List PackRow) (r : PackRow) :
    activeCount (publishPack rows r) = activeCount rows := by
  unfold publishPack insertPackOnConflict
  split
  · rfl
  · unfold activeCount
    rw [List.filter_append]
    simp

lemma filter_version_length_le_one (rows : List PackRow) (v : String)
    (h : (versionsOf rows).Nodup) :
    (rows.filter (fun p => p.version == v)).length ≤ 1 := by
  induction rows with
  | nil => simp
  | cons a rs ih =>
    have hparts := List.nodup_cons.mp h
    have hnotin : a.version ∉ versionsOf rs := hparts.1
    by_cases hv : (a.version == v) = true
    · rw [List.filter_cons, if_pos hv]
      have hveq : a.version = v := by
        rw [← beq_iff_eq]
        exact hv
      have hempty : rs.filter (fun p => p.version == v) = [] := by
        rw [List.filter_eq_nil_iff]
        intro p hp hcon
        rw [beq_iff_eq] at hcon
        apply hnotin
        rw [hveq]
        exact List.mem_map.mpr ⟨p, hp, hcon⟩
      rw [hempty]
      simp
    · rw [List.filter_cons, if_neg hv]
      exact ih hparts.2

lemma activeCount_activateVersion (v : String) (rows : List PackRow)
    (h : (versionsOf rows).Nodup) :
    activeCount (activateVersion v rows) ≤ 1 := by
  unfold activeCount activateVersion
  rw [List.filter_map, List.length_map]
  exact filter_version_length_le_one rows v h

/-- Claim C9: in every registry state reachable from the seeded
database, at most one policy pack is marked active and pack versions are
unique; moreover publishing keeps every existing version addressable and
activation keeps the version column unchanged, so previously published
packs remain addressable by version. -/
theorem registry_invariant (rows : List PackRow)
    (h : RegistryReachable rows) :
    activeCount rows ≤ 1 ∧ (versionsOf rows).Nodup ∧
    (∀ r p, p ∈ rows → p.version ∈ versionsOf (publishPack rows r)) ∧
    (∀ v, versionsOf (activateVersion v rows) = versionsOf rows) := by
  have haddr : ∀ (rws : List PackRow) (r : PackRow) (p : PackRow),
      p ∈ rws → p.version ∈ versionsOf (publishPack rws r) := by
    intro rws r p hp
    unfold publishPack insertPackOnConflict
    split
    · exact List.mem_map.mpr ⟨p, hp, rfl⟩
    · unfold versionsOf
      rw [List.map_append]
      exact List.mem_append_left _ (List.mem_map.mpr ⟨p, hp, rfl⟩)
  induction h with
  | seed =>
    exact ⟨by decide, by decide, haddr seedRows,
      fun v => versionsOf_activateVersion v seedRows⟩
  | publish r rws hr ih =>
    refine ⟨?_, ?_, haddr _, fun v => versionsOf_activateVersion v _⟩
    · rw [activeCount_publishPack]
      exact ih.1
    · exact versionsOf_insert_nodup rws _ ih.2.1
  | activate v rws hr ih =>
    refine ⟨?_, ?_, haddr _, fun w => versionsOf_activateVersion w _⟩
    · exact activeCount_activateVersion v rws ih.2.1
    · rw [versionsOf_activateVersion]
      exact ih.2.1

/-- Witness for claim C9 at the seeded database state. -/
theorem registry_invariant_witness :
    activeCount seedRows ≤ 1 ∧ (versionsOf seedRows).Nodup :=
  ⟨(registry_invariant seedRows RegistryReachable.seed).1,
    (registry_invariant seedRows RegistryReachable.seed).2.1⟩

end Actum
